import Mathlib

/-!
Shallow embedding of the Prophet BYOM forecasting service
(`examples/prophet-byom/app.py`).

Modelling conventions:
* JSON instants (the `ts` field and wall-clock times) are modelled as
  integers (`Instant`); `pd.to_datetime` parsing is absorbed into the model,
  so a present `ts` key carries an already-parsed instant.
* float64 values are modelled as integers: the only arithmetic the shim
  performs on them is clamping with `max 0`, which is order-theoretic.
* The external Prophet library is a black box (`Engine`), exactly as the
  spec treats it: `fit` returns an opaque model handle,
  `make_future_dataframe` returns future timestamps, `predict` returns raw
  point forecasts.  Each can fail with a Python exception, modelled as
  `PyError` (a `ValueError` or any other exception class).
* `pd.DataFrame.sort_values` defaults to numpy quicksort, whose tie order
  is unspecified (pandas documents it as not stable); the sort is therefore
  a parameter `sortFn` of the orchestration, not a fixed Lean function.
* Python `int(x)` coercion of a JSON field either yields an integer or
  raises a `ValueError`; a present top-level numeric field is modelled as
  `JsonInt`.
* Flask's `if not data:` check is truthiness: it fires when the parsed body
  is absent or is an empty object.  A body is `Option RawBody`, and a
  `RawBody` records the three contract fields plus a count of any other
  keys (such as `now`), which matter only for truthiness.
-/

namespace ProphetByom

/-- Instants (parsed timestamps and wall-clock times) modelled as integers. -/
abbrev Instant := Int

/-- Outcome of Python `int(x)` on a present JSON field: a value, or the
`ValueError` message `int` raises. -/
inductive JsonInt where
  | val (n : Int)
  | bad (msg : String)
  deriving DecidableEq

/-- One entry of the `features` array: presence of the `ts` and `value`
keys, with the `ts` instant already parsed and `value` numeric. -/
structure RawFeature where
  ts : Option Instant
  value : Option Int
  deriving DecidableEq

/-- A parsed JSON request body: the three contract fields (each possibly
absent) plus the number of other keys present (for truthiness only). -/
structure RawBody where
  horizonSeconds : Option JsonInt
  stepSeconds : Option JsonInt
  features : Option (List RawFeature)
  extraKeys : Nat
  deriving DecidableEq

/-- Python truthiness of the parsed body: `not data` is true exactly when
the object has no keys at all. -/
def RawBody.isEmptyDict (b : RawBody) : Bool :=
  b.horizonSeconds.isNone && b.stepSeconds.isNone && b.features.isNone && b.extraKeys == 0

/-- The validation failures of the `/predict` handler, one per early-return
site (plus the `ValueError` a failed `int` coercion raises, which reaches
the same 400 handler). -/
inductive VError where
  | missingBody
  | missingField (name : String)
  | coercionFailure (msg : String)
  | invalidHorizon
  | invalidStep
  | stepExceedsHorizon
  | insufficientFeatures
  | missingFeatureField (index : Nat) (name : String)
  deriving DecidableEq

/-- The exact error message the handler puts in the 400 body for each
validation failure (string literals from `app.py`). -/
def errMsg : VError → String
  | .missingBody => "request body is required"
  | .missingField n => "missing required field: " ++ n
  | .coercionFailure m => m
  | .invalidHorizon => "horizonSeconds must be > 0"
  | .invalidStep => "stepSeconds must be > 0"
  | .stepExceedsHorizon => "stepSeconds cannot exceed horizonSeconds"
  | .insufficientFeatures => "features must contain at least 2 points for Prophet"
  | .missingFeatureField i n => "feature[" ++ toString i ++ "] missing required field: " ++ n

/-- A request that passed every validation check. -/
structure PredictionRequest where
  horizonSeconds : Int
  stepSeconds : Int
  features : List RawFeature
  deriving DecidableEq

/-- The per-entry feature check of the handler: scan entries in index
order, and for each entry check `ts` then `value`; report the first
missing key. -/
def firstBadFeature : Nat → List RawFeature → Option VError
  | _, [] => none
  | i, f :: rest =>
    if f.ts.isNone then some (.missingFeatureField i "ts")
    else if f.value.isNone then some (.missingFeatureField i "value")
    else firstBadFeature (i + 1) rest

/-- The validation pipeline of the `/predict` handler (lines 100-131 of
`app.py`): body truthiness, the required-field loop in listed order, the
two `int` coercions, the three range checks, the feature count, and the
per-entry key checks.  The first failing check determines the error. -/
def validate (body : Option RawBody) : Except VError PredictionRequest :=
  match body with
  | none => .error .missingBody
  | some data =>
    if data.isEmptyDict then .error .missingBody
    else
      match data.horizonSeconds with
      | none => .error (.missingField "horizonSeconds")
      | some rawH =>
        match data.stepSeconds with
        | none => .error (.missingField "stepSeconds")
        | some rawS =>
          match data.features with
          | none => .error (.missingField "features")
          | some feats =>
            match rawH with
            | .bad m => .error (.coercionFailure m)
            | .val horizon_seconds =>
              match rawS with
              | .bad m => .error (.coercionFailure m)
              | .val step_seconds =>
                if horizon_seconds ≤ 0 then .error .invalidHorizon
                else if step_seconds ≤ 0 then .error .invalidStep
                else if step_seconds > horizon_seconds then .error .stepExceedsHorizon
                else if feats.isEmpty || feats.length < 2 then .error .insufficientFeatures
                else
                  match firstBadFeature 0 feats with
                  | some e => .error e
                  | none => .ok ⟨horizon_seconds, step_seconds, feats⟩

/-- A Python exception escaping the orchestration: either of the
`ValueError` class (mapped to 400) or any other class (mapped to 500). -/
inductive PyError where
  | valueError (msg : String)
  | otherError (msg : String)
  deriving DecidableEq

/-- The external Prophet engine, a black box per the spec: `fit` on a
(timestamp, value) series yields an opaque model handle;
`make_future_dataframe handle periods step` yields the future timestamps
(history excluded); `predict handle futureTs` yields one raw point forecast
per future timestamp.  Each call may raise. -/
structure Engine where
  fit : List (Instant × Int) → Except PyError Nat
  make_future_dataframe : Nat → Int → Int → Except PyError (List Instant)
  predict : Nat → List Instant → Except PyError (List Int)

/-- The mutable fields of the `ProphetForecaster` singleton. -/
structure ForecasterState where
  model : Option Nat
  last_trained : Option Instant
  deriving DecidableEq

/-- `ProphetForecaster.__init__`: both fields start as `None`. -/
def initialForecaster : ForecasterState := ⟨none, none⟩

/-- Python list slice `l[:n]` for an integer bound `n` (negative bounds
count from the end). -/
def pySliceTo (l : List α) (n : Int) : List α :=
  if 0 ≤ n then l.take n.toNat else l.take (l.length + n).toNat

/-- The DataFrame-building comprehension of `train_and_predict`: each
feature becomes `(pd.to_datetime(f['ts']), float(f.get('value', 0)))`;
an absent `ts` key raises a `KeyError` (not a `ValueError`), and an absent
`value` defaults to 0. -/
def buildSeries : List RawFeature → Except PyError (List (Instant × Int))
  | [] => .ok []
  | f :: rest =>
    match f.ts with
    | none => .error (.otherError "KeyError: ts")
    | some t =>
      match buildSeries rest with
      | .error e => .error e
      | .ok tail => .ok ((t, f.value.getD 0) :: tail)

/-- `ProphetForecaster.train_and_predict` (lines 26-66 of `app.py`).
`sortFn` stands for `df.sort_values('ds')` (external, default quicksort);
`now` is the value `datetime.now()` returns during this call.  Returns the
predictions (or the escaping exception) together with the forecaster state
after the call.  Note the order of effects in the source: `self.model` and
`self.last_trained` are assigned immediately after a successful `fit`,
before `make_future_dataframe` and `predict` run. -/
def train_and_predict (eng : Engine) (sortFn : List (Instant × Int) → List (Instant × Int))
    (now : Instant) (st : ForecasterState)
    (features : List RawFeature) (horizon_seconds step_seconds : Int) :
    Except PyError (List Int) × ForecasterState :=
  if features.isEmpty then (.error (.valueError "features cannot be empty"), st)
  else
    match buildSeries features with
    | .error e => (.error e, st)
    | .ok df0 =>
      match eng.fit (sortFn df0) with
      | .error e => (.error e, st)
      | .ok m =>
        let st1 : ForecasterState := ⟨some m, some now⟩
        let num_periods : Int := horizon_seconds.fdiv step_seconds
        match eng.make_future_dataframe m num_periods step_seconds with
        | .error e => (.error e, st1)
        | .ok future_df =>
          match eng.predict m future_df with
          | .error e => (.error e, st1)
          | .ok yhat =>
            let predictions := yhat.map (fun x => max 0 x)
            (.ok (pySliceTo predictions num_periods), st1)

/-- An HTTP response body of the `/predict` endpoint: the success envelope
`(metric, values)` or an error object `(error: msg)`. -/
inductive PredictResponse where
  | success (metric : String) (values : List Int)
  | errorBody (msg : String)
  deriving DecidableEq

/-- The `/predict` handler (lines 81-151 of `app.py`): validate, orchestrate,
and map outcomes to HTTP status plus body.  A `ValueError` escaping the
orchestration becomes a 400 carrying the error's message; any other
exception becomes a 500 carrying exactly `internal server error`. -/
def predict (eng : Engine) (sortFn : List (Instant × Int) → List (Instant × Int))
    (now : Instant) (st : ForecasterState) (body : Option RawBody) :
    (Nat × PredictResponse) × ForecasterState :=
  match validate body with
  | .error e => ((400, .errorBody (errMsg e)), st)
  | .ok req =>
    match train_and_predict eng sortFn now st req.features req.horizonSeconds req.stepSeconds with
    | (.ok predictions, st2) => ((200, .success "prophet_forecast" predictions), st2)
    | (.error (.valueError m), st2) => ((400, .errorBody m), st2)
    | (.error (.otherError _), st2) => ((500, .errorBody "internal server error"), st2)

/-- The `/healthz` response body. -/
structure HealthResponse where
  status : String
  model : String
  last_trained : Option Instant
  deriving DecidableEq

/-- The `GET /healthz` handler: reads `forecaster.last_trained`, mutates
nothing. -/
def healthz (st : ForecasterState) : Nat × HealthResponse :=
  (200, ⟨"healthy", "prophet", st.last_trained⟩)

/-- Run a sequence of `/predict` requests (each with its wall-clock time and
body) against the process-wide forecaster state. -/
def runRequests (eng : Engine) (sortFn : List (Instant × Int) → List (Instant × Int)) :
    List (Instant × Option RawBody) → ForecasterState → ForecasterState
  | [], st => st
  | (now, body) :: rest, st => runRequests eng sortFn rest (predict eng sortFn now st body).2

/-- The model handle `train_and_predict` obtains from a successful `fit`,
if its execution reaches one: `none` when the features are empty, the
series build raises, or `fit` itself raises. -/
def fitCore (eng : Engine) (sortFn : List (Instant × Int) → List (Instant × Int))
    (features : List RawFeature) : Option Nat :=
  if features.isEmpty then none
  else
    match buildSeries features with
    | .error _ => none
    | .ok df0 =>
      match eng.fit (sortFn df0) with
      | .ok m => some m
      | .error _ => none

/-- The model handle a `/predict` request's execution obtains from a
successful `fit`, if it reaches one (`none` when validation fails or the
orchestration fails before or at `fit`).  This is exactly the condition
under which the source assigns `self.model` and `self.last_trained`. -/
def fitResult (eng : Engine) (sortFn : List (Instant × Int) → List (Instant × Int))
    (body : Option RawBody) : Option Nat :=
  match validate body with
  | .error _ => none
  | .ok req => fitCore eng sortFn req.features

/-- Decidable equality for `Except`, so concrete runs of `validate` and
`train_and_predict` can be settled by `decide`. -/
instance {ε α : Type} [DecidableEq ε] [DecidableEq α] : DecidableEq (Except ε α)
  | .error a, .error b =>
    if h : a = b then .isTrue (by rw [h]) else .isFalse (by intro hc; cases hc; exact h rfl)
  | .error _, .ok _ => .isFalse (by intro hc; cases hc)
  | .ok _, .error _ => .isFalse (by intro hc; cases hc)
  | .ok a, .ok b =>
    if h : a = b then .isTrue (by rw [h]) else .isFalse (by intro hc; cases hc; exact h rfl)

/-! ### The ordered rule list of the validator

Spec-side rendering of §4.1: validation is an ordered list of checks and
the reported error is the one attached to the first failing check.  The
rule list is built from the same request data; the refinement theorem for
C4 proves `validate` returns an error exactly when the first failing rule
carries that error. -/

/-- First failing rule of an ordered check list. -/
def firstFailing : List (Bool × VError) → Option VError
  | [] => none
  | (ok, e) :: rest => if ok then firstFailing rest else some e

/-- Whether Python `int` coercion of a present field succeeds (an absent
field passes vacuously; presence is an earlier rule). -/
def coercionOk : Option JsonInt → Bool
  | some (.bad _) => false
  | _ => true

/-- The error a failed `int` coercion raises (placeholder when the field is
absent or coercible; such a rule never fires). -/
def coercionErr : Option JsonInt → VError
  | some (.bad m) => .coercionFailure m
  | _ => .coercionFailure ""

/-- The coerced integer of a field, with a default used only when an
earlier rule already failed. -/
def coercedOr : Option JsonInt → Int → Int
  | some (.val n), _ => n
  | _, d => d

/-- The per-entry rules, in index order: entry `i` must have `ts`, then
`value`. -/
def featureRules : Nat → List RawFeature → List (Bool × VError)
  | _, [] => []
  | i, f :: rest =>
    (f.ts.isSome, .missingFeatureField i "ts") ::
      (f.value.isSome, .missingFeatureField i "value") :: featureRules (i + 1) rest

/-- The ordered rule list of §4.1 for a given body: body truthiness, field
presence in listed order, the two coercions, the three range checks, the
feature count, then the per-entry rules. -/
def ruleList (body : Option RawBody) : List (Bool × VError) :=
  match body with
  | none => [(false, .missingBody)]
  | some d =>
    let hv := coercedOr d.horizonSeconds 1
    let sv := coercedOr d.stepSeconds 1
    let feats := d.features.getD []
    [(!d.isEmptyDict, .missingBody),
      (d.horizonSeconds.isSome, .missingField "horizonSeconds"),
      (d.stepSeconds.isSome, .missingField "stepSeconds"),
      (d.features.isSome, .missingField "features"),
      (coercionOk d.horizonSeconds, coercionErr d.horizonSeconds),
      (coercionOk d.stepSeconds, coercionErr d.stepSeconds),
      (decide (0 < hv), .invalidHorizon),
      (decide (0 < sv), .invalidStep),
      (decide (sv ≤ hv), .stepExceedsHorizon),
      (decide (2 ≤ feats.length), .insufficientFeatures)] ++ featureRules 0 feats

/-! ### External engine contract (spec §6)

The spec's contract for the black-box engine: the future-frame generator
returns exactly the requested number of timestamps, and `predict` returns
one point forecast per timestamp. -/

/-- Engine contract: a successful `make_future_dataframe handle periods
step` returns `periods` timestamps. -/
def FutureLenSpec (eng : Engine) : Prop :=
  ∀ m periods step ts, eng.make_future_dataframe m periods step = .ok ts →
    ts.length = periods.toNat

/-- Engine contract: a successful `predict` returns one forecast per future
timestamp. -/
def PredictLenSpec (eng : Engine) : Prop :=
  ∀ m ts ys, eng.predict m ts = .ok ys → ys.length = ts.length

/-! ### Concrete fixtures for witnesses and counterexamples -/

/-- Two well-formed historical points, one hour apart. -/
def goodFeatures : List RawFeature := [⟨some 0, some 10⟩, ⟨some 3600, some 12⟩]

/-- The documented example request: horizon 120 s, step 60 s, two features,
plus one extra key (`now`). -/
def goodBody : RawBody := ⟨some (.val 120), some (.val 60), some goodFeatures, 1⟩

/-- A deterministic sort on (timestamp, value) pairs, one admissible
instance of the external sort. -/
def insertTs (p : Instant × Int) : List (Instant × Int) → List (Instant × Int)
  | [] => [p]
  | q :: rest => if p.1 < q.1 then p :: q :: rest else q :: insertTs p rest

/-- Insertion sort by timestamp, used to instantiate `sortFn` in concrete
runs. -/
def insertionSortTs : List (Instant × Int) → List (Instant × Int)
  | [] => []
  | p :: rest => insertTs p (insertionSortTs rest)

/-- A well-behaved engine: fitting always yields handle 1, the future frame
is `periods` timestamps spaced `step` apart, and each forecast is the
timestamp minus 100 (so early forecasts are negative and exercise the
clamp). -/
def testEngine : Engine where
  fit := fun _ => .ok 1
  make_future_dataframe := fun _ periods step =>
    .ok ((List.range periods.toNat).map (fun i => step * (Int.ofNat i + 1)))
  predict := fun _ ts => .ok (ts.map (fun t => t - 100))

/-- An engine whose raw forecasts are all negative. -/
def negEngine : Engine where
  fit := fun _ => .ok 1
  make_future_dataframe := fun _ periods step =>
    .ok ((List.range periods.toNat).map (fun i => step * (Int.ofNat i + 1)))
  predict := fun _ ts => .ok (ts.map (fun _ => -5))

/-- An engine whose `fit` succeeds but whose `predict` raises a
non-`ValueError` exception. -/
def fitOnlyEngine : Engine where
  fit := fun _ => .ok 1
  make_future_dataframe := fun _ periods step =>
    .ok ((List.range periods.toNat).map (fun i => step * (Int.ofNat i + 1)))
  predict := fun _ _ => .error (.otherError "numerical non-convergence")

/-- An engine whose `fit` raises a `ValueError`. -/
def valueErrorEngine : Engine where
  fit := fun _ => .error (.valueError "fit rejected input")
  make_future_dataframe := fun _ _ _ => .ok []
  predict := fun _ _ => .ok []

/-- The empty JSON object as a request body. -/
def emptyObjBody : RawBody := ⟨none, none, none, 0⟩

/-! ### Helper lemmas and claim theorems -/

theorem train_and_predict_snd (eng : Engine) (sf : List (Instant × Int) → List (Instant × Int))
    (now : Instant) (st : ForecasterState) (feats : List RawFeature) (h s : Int) :
    (train_and_predict eng sf now st feats h s).2 =
      match fitCore eng sf feats with
      | some m => ⟨some m, some now⟩
      | none => st := by
  unfold train_and_predict fitCore
  by_cases hE : feats.isEmpty = true
  · simp [hE]
  · simp only [hE, Bool.false_eq_true, if_false]
    cases hb : buildSeries feats with
    | error e => simp [hb]
    | ok df0 =>
      cases hfit : eng.fit (sf df0) with
      | error e => simp [hfit]
      | ok m =>
        cases hmf : eng.make_future_dataframe m (h.fdiv s) s with
        | error e => simp [hfit, hmf]
        | ok fut =>
          cases hp : eng.predict m fut with
          | error e => simp [hfit, hmf, hp]
          | ok yhat => simp [hfit, hmf, hp]

theorem predict_snd_ok (eng : Engine) (sf : List (Instant × Int) → List (Instant × Int))
    (now : Instant) (st : ForecasterState) (body : Option RawBody) (req : PredictionRequest)
    (hv : validate body = .ok req) :
    (predict eng sf now st body).2 =
      (train_and_predict eng sf now st req.features req.horizonSeconds req.stepSeconds).2 := by
  unfold predict
  rw [hv]
  rcases htr : train_and_predict eng sf now st req.features req.horizonSeconds req.stepSeconds
    with ⟨res, st2⟩
  cases res with
  | ok vals => simp [htr]
  | error e => cases e <;> simp [htr]

theorem predict_snd (eng : Engine) (sf : List (Instant × Int) → List (Instant × Int))
    (now : Instant) (st : ForecasterState) (body : Option RawBody) :
    (predict eng sf now st body).2 =
      match fitResult eng sf body with
      | some m => ⟨some m, some now⟩
      | none => st := by
  unfold fitResult
  cases hv : validate body with
  | error e => unfold predict; rw [hv]
  | ok req => rw [predict_snd_ok eng sf now st body req hv, train_and_predict_snd]

theorem predict_success_inv (eng : Engine) (sf : List (Instant × Int) → List (Instant × Int))
    (now : Instant) (st : ForecasterState) (body : Option RawBody)
    (mtr : String) (vals : List Int) (st2 : ForecasterState)
    (hrun : predict eng sf now st body = ((200, .success mtr vals), st2)) :
    ∃ req df0 m fut yhat,
      validate body = .ok req ∧
      buildSeries req.features = .ok df0 ∧
      eng.fit (sf df0) = .ok m ∧
      eng.make_future_dataframe m (req.horizonSeconds.fdiv req.stepSeconds)
        req.stepSeconds = .ok fut ∧
      eng.predict m fut = .ok yhat ∧
      mtr = "prophet_forecast" ∧
      vals = pySliceTo (yhat.map (fun x => max 0 x)) (req.horizonSeconds.fdiv req.stepSeconds) ∧
      st2 = ⟨some m, some now⟩ := by
  unfold predict at hrun
  cases hv : validate body with
  | error e => rw [hv] at hrun; simp at hrun
  | ok req =>
    rw [hv] at hrun
    unfold train_and_predict at hrun
    by_cases hE : req.features.isEmpty = true
    · simp [hE] at hrun
    · simp only [hE, Bool.false_eq_true, if_false] at hrun
      cases hb : buildSeries req.features with
      | error e => rw [hb] at hrun; cases e <;> simp at hrun
      | ok df0 =>
        simp only [hb] at hrun
        cases hfit : eng.fit (sf df0) with
        | error e => simp only [hfit] at hrun; cases e <;> simp at hrun
        | ok m =>
          simp only [hfit] at hrun
          cases hmf : eng.make_future_dataframe m
              (req.horizonSeconds.fdiv req.stepSeconds) req.stepSeconds with
          | error e => simp only [hmf] at hrun; cases e <;> simp at hrun
          | ok fut =>
            simp only [hmf] at hrun
            cases hp : eng.predict m fut with
            | error e => simp only [hp] at hrun; cases e <;> simp at hrun
            | ok yhat =>
              simp only [hp] at hrun
              simp at hrun
              exact ⟨req, df0, m, fut, yhat, rfl, hb, hfit, hmf, hp,
                hrun.1.1.symm, hrun.1.2.symm, hrun.2.symm⟩

theorem validate_ok_inv (body : Option RawBody) (req : PredictionRequest)
    (hv : validate body = .ok req) :
    0 < req.horizonSeconds ∧ 0 < req.stepSeconds ∧
      req.stepSeconds ≤ req.horizonSeconds ∧ 2 ≤ req.features.length := by
  unfold validate at hv
  repeat' split at hv
  all_goals simp_all
  subst hv
  simp_all



theorem predict_success_length (eng : Engine) (sf : List (Instant × Int) → List (Instant × Int))
    (now : Instant) (st : ForecasterState) (body : Option RawBody)
    (mtr : String) (vals : List Int) (st2 : ForecasterState) (req : PredictionRequest)
    (hfut : FutureLenSpec eng) (hpred : PredictLenSpec eng)
    (hv : validate body = .ok req)
    (hrun : predict eng sf now st body = ((200, .success mtr vals), st2)) :
    vals.length = (req.horizonSeconds.fdiv req.stepSeconds).toNat := by
  obtain ⟨req2, df0, m, fut, yhat, hv2, hb, hfit, hmf, hp, hm, hvals, hst⟩ :=
    predict_success_inv eng sf now st body mtr vals st2 hrun
  have hre : req = req2 := by
    have h12 := hv.symm.trans hv2
    injection h12
  subst hre
  obtain ⟨hh, hs, hle, hcnt⟩ := validate_ok_inv body req hv
  have hn : 0 ≤ req.horizonSeconds.fdiv req.stepSeconds :=
    Int.fdiv_nonneg (le_of_lt hh) (le_of_lt hs)
  have hfl : fut.length = (req.horizonSeconds.fdiv req.stepSeconds).toNat :=
    hfut m _ _ fut hmf
  have hyl : yhat.length = fut.length := hpred m fut yhat hp
  subst hvals
  simp [pySliceTo, hn, List.length_take, hyl, hfl]

theorem predict_fst_indep (eng : Engine) (sf : List (Instant × Int) → List (Instant × Int))
    (now : Instant) (st st' : ForecasterState) (body : Option RawBody) :
    (predict eng sf now st body).1 = (predict eng sf now st' body).1 := by
  unfold predict
  cases hv : validate body with
  | error e => rfl
  | ok req =>
    unfold train_and_predict
    by_cases hE : req.features.isEmpty = true
    · simp [hE]
    · simp only [hE, Bool.false_eq_true, if_false]
      cases hb : buildSeries req.features with
      | error e => cases e <;> simp [hb]
      | ok df0 =>
        cases hfit : eng.fit (sf df0) with
        | error e => cases e <;> simp [hb, hfit]
        | ok m => simp only [hb, hfit]

theorem firstFailing_featureRules (fs : List RawFeature) (i : Nat) :
    firstFailing (featureRules i fs) = firstBadFeature i fs := by
  induction fs generalizing i with
  | nil => rfl
  | cons f rest ih =>
    unfold featureRules firstBadFeature
    cases hts : f.ts with
    | none => simp [firstFailing]
    | some t =>
      cases hvv : f.value with
      | none => simp [firstFailing]
      | some v => simp [firstFailing, ih]

theorem validate_eq_firstFailing (body : Option RawBody) (e : VError) :
    validate body = .error e ↔ firstFailing (ruleList body) = some e := by
  cases body with
  | none => simp [validate, ruleList, firstFailing]
  | some d =>
    obtain ⟨hOpt, sOpt, fOpt, ex⟩ := d
    cases hOpt with
    | none =>
      cases sOpt with
      | none =>
        cases fOpt with
        | none =>
          by_cases hex : ex = 0
          · subst hex
            simp [validate, ruleList, firstFailing, RawBody.isEmptyDict]
          · simp [validate, ruleList, firstFailing, RawBody.isEmptyDict, hex]
        | some fs => simp [validate, ruleList, firstFailing, RawBody.isEmptyDict]
      | some rawS => simp [validate, ruleList, firstFailing, RawBody.isEmptyDict]
    | some rawH =>
      cases sOpt with
      | none => simp [validate, ruleList, firstFailing, RawBody.isEmptyDict]
      | some rawS =>
        cases fOpt with
        | none => simp [validate, ruleList, firstFailing, RawBody.isEmptyDict]
        | some fs =>
          cases rawH with
          | bad m =>
            simp [validate, ruleList, firstFailing, RawBody.isEmptyDict, coercionOk,
              coercionErr]
          | val hn =>
            cases rawS with
            | bad m =>
              simp [validate, ruleList, firstFailing, RawBody.isEmptyDict, coercionOk,
                coercionErr, coercedOr]
            | val sn =>
              by_cases h1 : hn ≤ 0
              · have h1b : ¬ (0 : Int) < hn := by omega
                simp [validate, ruleList, firstFailing, RawBody.isEmptyDict, coercionOk,
                  coercionErr, coercedOr, h1, h1b]
              · by_cases h2 : sn ≤ 0
                · have h1b : (0 : Int) < hn := by omega
                  have h2b : ¬ (0 : Int) < sn := by omega
                  simp [validate, ruleList, firstFailing, RawBody.isEmptyDict, coercionOk,
                    coercionErr, coercedOr, h1, h2, h1b, h2b]
                · by_cases h3 : sn > hn
                  · have h1b : (0 : Int) < hn := by omega
                    have h2b : (0 : Int) < sn := by omega
                    have h3b : ¬ sn ≤ hn := by omega
                    simp [validate, ruleList, firstFailing, RawBody.isEmptyDict, coercionOk,
                      coercionErr, coercedOr, h1, h2, h3, h1b, h2b, h3b]
                  · by_cases h4 : fs.length < 2
                    · have h1b : (0 : Int) < hn := by omega
                      have h2b : (0 : Int) < sn := by omega
                      have h3b : sn ≤ hn := by omega
                      have h4b : ¬ 2 ≤ fs.length := by omega
                      simp [validate, ruleList, firstFailing, RawBody.isEmptyDict, coercionOk,
                        coercionErr, coercedOr, h1, h2, h3, h4, h1b, h2b, h3b, h4b]
                    · have h1b : (0 : Int) < hn := by omega
                      have h2b : (0 : Int) < sn := by omega
                      have h3b : sn ≤ hn := by omega
                      have h4b : 2 ≤ fs.length := by omega
                      have hne : fs.isEmpty = false := by
                        cases fs with
                        | nil => simp at h4
                        | cons a l => rfl
                      simp only [validate, ruleList, firstFailing, RawBody.isEmptyDict,
                        coercionOk, coercionErr, coercedOr]
                      simp [h1, h2, h3, h4, h1b, h2b, h3b, h4b, hne, firstFailing,
                        firstFailing_featureRules]
                      cases hfb : firstBadFeature 0 fs with
                      | none => simp
                      | some e0 => simp

theorem runRequests_last_trained (eng : Engine)
    (sf : List (Instant × Int) → List (Instant × Int))
    (reqs : List (Instant × Option RawBody)) (st : ForecasterState) :
    (runRequests eng sf reqs st).last_trained ≠ none ↔
      (st.last_trained ≠ none ∨ ∃ p ∈ reqs, (fitResult eng sf p.2).isSome = true) := by
  induction reqs generalizing st with
  | nil => simp [runRequests]
  | cons r rest ih =>
    obtain ⟨now, body⟩ := r
    simp only [runRequests]
    rw [ih, predict_snd]
    cases hf : fitResult eng sf body with
    | some m => simp [hf]
    | none => simp [hf]

theorem mem_pySliceTo (l : List α) (n : Int) (a : α) (hm : a ∈ pySliceTo l n) : a ∈ l := by
  unfold pySliceTo at hm
  split at hm
  · exact List.mem_of_mem_take hm
  · exact List.mem_of_mem_take hm

theorem testEngine_future_len : FutureLenSpec testEngine := by
  intro m periods step ts h
  simp only [testEngine] at h
  injection h with h
  subst h
  simp

theorem testEngine_predict_len : PredictLenSpec testEngine := by
  intro m ts ys h
  simp only [testEngine] at h
  injection h with h
  subst h
  simp


/-- C1: for every validated request for which the external fit and predict
succeed, the number of returned values is exactly the integer floor
division of the horizon by the step. -/
theorem c1_response_length (eng : Engine) (sf : List (Instant × Int) → List (Instant × Int))
    (now : Instant) (st : ForecasterState) (body : Option RawBody)
    (mtr : String) (vals : List Int) (st2 : ForecasterState) (req : PredictionRequest)
    (hfut : FutureLenSpec eng) (hpred : PredictLenSpec eng)
    (hv : validate body = .ok req)
    (hrun : predict eng sf now st body = ((200, .success mtr vals), st2)) :
    vals.length = (req.horizonSeconds.fdiv req.stepSeconds).toNat :=
  predict_success_length eng sf now st body mtr vals st2 req hfut hpred hv hrun

theorem c1_witness :
    FutureLenSpec testEngine ∧ PredictLenSpec testEngine ∧
    validate (some goodBody) = .ok ⟨120, 60, goodFeatures⟩ ∧
    predict testEngine insertionSortTs 0 initialForecaster (some goodBody) =
      ((200, .success "prophet_forecast" [0, 20]), ⟨some 1, some 0⟩) ∧
    ([0, 20] : List Int).length = ((120 : Int).fdiv 60).toNat :=
  ⟨testEngine_future_len, testEngine_predict_len, by decide, by decide,
    c1_response_length testEngine insertionSortTs 0 initialForecaster (some goodBody)
      "prophet_forecast" [0, 20] ⟨some 1, some 0⟩ ⟨120, 60, goodFeatures⟩
      testEngine_future_len testEngine_predict_len (by decide) (by decide)⟩

/-- C2: every value in a successful response is non-negative, because each
raw forecast is clamped to `max 0` before being returned. -/
theorem c2_values_nonneg (eng : Engine) (sf : List (Instant × Int) → List (Instant × Int))
    (now : Instant) (st : ForecasterState) (body : Option RawBody)
    (mtr : String) (vals : List Int) (st2 : ForecasterState)
    (hrun : predict eng sf now st body = ((200, .success mtr vals), st2))
    (v : Int) (hm : v ∈ vals) : 0 ≤ v := by
  obtain ⟨req, df0, m, fut, yhat, hv, hb, hfit, hmf, hp, hmtr, hvals, hst⟩ :=
    predict_success_inv eng sf now st body mtr vals st2 hrun
  subst hvals
  have hm2 := mem_pySliceTo _ _ _ hm
  obtain ⟨x, hx, hvx⟩ := List.mem_map.mp hm2
  subst hvx
  exact le_max_left 0 x

theorem c2_witness :
    predict negEngine insertionSortTs 0 initialForecaster (some goodBody) =
      ((200, .success "prophet_forecast" [0, 0]), ⟨some 1, some 0⟩) ∧
    (0 : Int) ∈ [(0 : Int), 0] ∧ (0 : Int) ≤ 0 :=
  ⟨by decide, by decide,
    c2_values_nonneg negEngine insertionSortTs 0 initialForecaster (some goodBody)
      "prophet_forecast" [0, 0] ⟨some 1, some 0⟩ (by decide) 0 (by decide)⟩

/-- C4: validation runs its checks in the listed order and reports exactly
the first violated rule: `validate` errors with `e` exactly when the first
failing entry of the ordered rule list carries `e`, and succeeds exactly
when no rule fails. -/
theorem c4_validation_order (body : Option RawBody) :
    (∀ e, validate body = .error e ↔ firstFailing (ruleList body) = some e) ∧
    (∀ req, validate body = .ok req → firstFailing (ruleList body) = none) := by
  refine ⟨fun e => validate_eq_firstFailing body e, fun req hv => ?_⟩
  cases hff : firstFailing (ruleList body) with
  | none => rfl
  | some e0 =>
    have h := (validate_eq_firstFailing body e0).mpr hff
    rw [hv] at h
    exact Except.noConfusion h

theorem c4_witness :
    validate (some ⟨some (.val 5), none, none, 0⟩) = .error (.missingField "stepSeconds") ∧
    firstFailing (ruleList (some ⟨some (.val 5), none, none, 0⟩)) =
      some (.missingField "stepSeconds") :=
  ⟨by decide, ((c4_validation_order (some ⟨some (.val 5), none, none, 0⟩)).1
      (.missingField "stepSeconds")).mp (by decide)⟩

/-- C5 counterexample: the empty JSON object is falsy in Python, so the
handler's `if not data` check fires and the reported error is the
missing-body one, not `MissingField horizonSeconds` as the claim states. -/
theorem c5_counterexample :
    validate (some emptyObjBody) = .error .missingBody ∧
    validate (some emptyObjBody) ≠ .error (.missingField "horizonSeconds") ∧
    (predict testEngine insertionSortTs 0 initialForecaster (some emptyObjBody)).1 =
      (400, .errorBody "request body is required") := by
  refine ⟨by decide, by decide, by decide⟩

/-- C5 amended: a body that is an empty object fails the body-presence
check itself (emptiness is conflated with absence) and yields the
missing-body error; a present, non-empty body lacking `horizonSeconds`
fails with `MissingField horizonSeconds`. -/
theorem c5_empty_object (b : RawBody) :
    validate (some emptyObjBody) = .error .missingBody ∧
    (b.isEmptyDict = false → b.horizonSeconds = none →
      validate (some b) = .error (.missingField "horizonSeconds")) := by
  refine ⟨by decide, fun hne hh => ?_⟩
  obtain ⟨hOpt, sOpt, fOpt, ex⟩ := b
  simp only at hh
  subst hh
  simp [validate, hne]

theorem c5_witness :
    (⟨none, none, none, 1⟩ : RawBody).isEmptyDict = false ∧
    validate (some ⟨none, none, none, 1⟩) = .error (.missingField "horizonSeconds") :=
  ⟨by decide, (c5_empty_object ⟨none, none, none, 1⟩).2 (by decide) rfl⟩

/-- C6 counterexample: with an engine whose `fit` succeeds and whose
`predict` raises, the request fails with a 500, yet `last_trained` has
been updated from `none` to the request time — the claim says it would be
left unchanged. -/
theorem c6_counterexample :
    (predict fitOnlyEngine insertionSortTs 42 initialForecaster (some goodBody)).1.1 = 500 ∧
    initialForecaster.last_trained = none ∧
    (predict fitOnlyEngine insertionSortTs 42 initialForecaster (some goodBody)).2.last_trained
      = some 42 := by
  refine ⟨by decide, rfl, by decide⟩

/-- C6 amended: `last_trained` is assigned immediately after a successful
`fit`, before prediction, clamping and truncation; whenever the request's
execution reaches a successful fit — even if `predict` then raises — the
state records the request's time. -/
theorem c6_last_trained_after_fit (eng : Engine)
    (sf : List (Instant × Int) → List (Instant × Int)) (now : Instant)
    (st : ForecasterState) (body : Option RawBody)
    (hfit : (fitResult eng sf body).isSome = true) :
    (predict eng sf now st body).2.last_trained = some now := by
  rw [predict_snd]
  cases hf : fitResult eng sf body with
  | none => rw [hf] at hfit; simp at hfit
  | some m => simp [hf]

theorem c6_witness :
    (fitResult fitOnlyEngine insertionSortTs (some goodBody)).isSome = true ∧
    (predict fitOnlyEngine insertionSortTs 7 initialForecaster (some goodBody)).2.last_trained
      = some 7 :=
  ⟨by decide, c6_last_trained_after_fit fitOnlyEngine insertionSortTs 7 initialForecaster
    (some goodBody) (by decide)⟩

/-- C7: a `ValueError` escaping the orchestration becomes a 400 whose body
carries the error's message; any other exception becomes a 500 whose body
is exactly the generic message. -/
theorem c7_error_mapping (eng : Engine) (sf : List (Instant × Int) → List (Instant × Int))
    (now : Instant) (st : ForecasterState) (body : Option RawBody)
    (req : PredictionRequest) (st2 : ForecasterState)
    (hv : validate body = .ok req) :
    (∀ m, train_and_predict eng sf now st req.features req.horizonSeconds req.stepSeconds =
        (.error (.valueError m), st2) →
      predict eng sf now st body = ((400, .errorBody m), st2)) ∧
    (∀ m, train_and_predict eng sf now st req.features req.horizonSeconds req.stepSeconds =
        (.error (.otherError m), st2) →
      predict eng sf now st body = ((500, .errorBody "internal server error"), st2)) := by
  constructor <;> intro m htr <;> simp [predict, hv, htr]

theorem c7_witness :
    validate (some goodBody) = .ok ⟨120, 60, goodFeatures⟩ ∧
    predict valueErrorEngine insertionSortTs 0 initialForecaster (some goodBody) =
      ((400, .errorBody "fit rejected input"), initialForecaster) ∧
    predict fitOnlyEngine insertionSortTs 0 initialForecaster (some goodBody) =
      ((500, .errorBody "internal server error"), ⟨some 1, some 0⟩) :=
  ⟨by decide,
    (c7_error_mapping valueErrorEngine insertionSortTs 0 initialForecaster (some goodBody)
      ⟨120, 60, goodFeatures⟩ initialForecaster (by decide)).1 "fit rejected input" (by decide),
    (c7_error_mapping fitOnlyEngine insertionSortTs 0 initialForecaster (some goodBody)
      ⟨120, 60, goodFeatures⟩ ⟨some 1, some 0⟩ (by decide)).2 "numerical non-convergence"
      (by decide)⟩

/-- C8: at the boundary, a validated request with step equal to horizon
yields exactly one prediction, and a request with step exactly one larger
than a positive horizon is rejected with the step-exceeds-horizon 400. -/
theorem c8_boundary :
    (∀ (eng : Engine) (sf : List (Instant × Int) → List (Instant × Int))
        (now : Instant) (st : ForecasterState) (body : Option RawBody)
        (req : PredictionRequest) (mtr : String) (vals : List Int) (st2 : ForecasterState),
      FutureLenSpec eng → PredictLenSpec eng → validate body = .ok req →
      req.stepSeconds = req.horizonSeconds →
      predict eng sf now st body = ((200, .success mtr vals), st2) → vals.length = 1) ∧
    (∀ (eng : Engine) (sf : List (Instant × Int) → List (Instant × Int))
        (now : Instant) (st : ForecasterState) (hz : Int) (feats : List RawFeature) (ex : Nat),
      0 < hz →
      predict eng sf now st (some ⟨some (.val hz), some (.val (hz + 1)), some feats, ex⟩) =
        ((400, .errorBody "stepSeconds cannot exceed horizonSeconds"), st)) := by
  constructor
  · intro eng sf now st body req mtr vals st2 hfut hpred hv heq hrun
    have hlen := predict_success_length eng sf now st body mtr vals st2 req hfut hpred hv hrun
    obtain ⟨hh, hs, hle, hcnt⟩ := validate_ok_inv body req hv
    rw [heq, Int.fdiv_self (by omega : req.horizonSeconds ≠ 0)] at hlen
    simpa using hlen
  · intro eng sf now st hz feats ex hhz
    have hv : validate (some ⟨some (.val hz), some (.val (hz + 1)), some feats, ex⟩) =
        .error .stepExceedsHorizon := by
      have h1 : ¬ hz ≤ 0 := by omega
      have h2 : ¬ hz + 1 ≤ 0 := by omega
      have h3 : hz + 1 > hz := by omega
      simp [validate, RawBody.isEmptyDict, h1, h2, h3]
    unfold predict
    rw [hv]
    rfl

theorem c8_witness :
    validate (some ⟨some (.val 60), some (.val 60), some goodFeatures, 0⟩) =
      .ok ⟨60, 60, goodFeatures⟩ ∧
    predict testEngine insertionSortTs 0 initialForecaster
        (some ⟨some (.val 60), some (.val 60), some goodFeatures, 0⟩) =
      ((200, .success "prophet_forecast" [0]), ⟨some 1, some 0⟩) ∧
    ([(0 : Int)] : List Int).length = 1 ∧
    (0 : Int) < 60 ∧
    predict testEngine insertionSortTs 0 initialForecaster
        (some ⟨some (.val 60), some (.val 61), some goodFeatures, 0⟩) =
      ((400, .errorBody "stepSeconds cannot exceed horizonSeconds"), initialForecaster) :=
  ⟨by decide, by decide,
    c8_boundary.1 testEngine insertionSortTs 0 initialForecaster
      (some ⟨some (.val 60), some (.val 60), some goodFeatures, 0⟩) ⟨60, 60, goodFeatures⟩
      "prophet_forecast" [0] ⟨some 1, some 0⟩ testEngine_future_len testEngine_predict_len
      (by decide) rfl (by decide),
    by decide,
    c8_boundary.2 testEngine insertionSortTs 0 initialForecaster 60 goodFeatures 0 (by decide)⟩

/-- C9: `last_trained` starts empty, `/healthz` reports exactly it without
mutating anything, after any sequence of `/predict` requests it is
non-empty exactly when at least one request's fit succeeded, and a request
whose execution reaches no successful fit leaves it unchanged. -/
theorem c9_liveness (eng : Engine) (sf : List (Instant × Int) → List (Instant × Int)) :
    initialForecaster.last_trained = none ∧
    (healthz initialForecaster).2.last_trained = none ∧
    (∀ st, (healthz st).2.last_trained = st.last_trained) ∧
    (∀ reqs : List (Instant × Option RawBody),
      ((runRequests eng sf reqs initialForecaster).last_trained ≠ none ↔
        ∃ p ∈ reqs, (fitResult eng sf p.2).isSome = true)) ∧
    (∀ (now : Instant) (st : ForecasterState) (body : Option RawBody),
      (fitResult eng sf body).isSome = false →
      (predict eng sf now st body).2.last_trained = st.last_trained) := by
  refine ⟨rfl, rfl, fun st => rfl, fun reqs => ?_, fun now st body hf => ?_⟩
  · rw [runRequests_last_trained]
    simp [initialForecaster]
  · rw [predict_snd]
    cases hfr : fitResult eng sf body with
    | none => simp [hfr]
    | some m => rw [hfr] at hf; simp at hf

theorem c9_witness :
    (runRequests testEngine insertionSortTs [(5, some goodBody)]
        initialForecaster).last_trained ≠ none :=
  ((c9_liveness testEngine insertionSortTs).2.2.2.1 [(5, some goodBody)]).mpr
    ⟨(5, some goodBody), by decide, by decide⟩

/-- C10 counterexample: a successful request stores the fitted model handle
in the process-wide forecaster state, so the fitted model does persist
beyond the request and `lastTrainedAt` is not the only state changed. -/
theorem c10_counterexample :
    initialForecaster.model = none ∧
    (predict testEngine insertionSortTs 0 initialForecaster (some goodBody)).1.1 = 200 ∧
    (predict testEngine insertionSortTs 0 initialForecaster (some goodBody)).2.model =
      some 1 := by
  refine ⟨rfl, by decide, by decide⟩

/-- C10 amended: each request performs a fresh fit — the response never
depends on the previously stored model (or any prior state) — but a
request whose execution reaches a successful fit overwrites the
process-wide `model` field with the new handle (and otherwise leaves it
unchanged), so the fitted model persists beyond the request. -/
theorem c10_fresh_fit (eng : Engine) (sf : List (Instant × Int) → List (Instant × Int))
    (now : Instant) (st stB : ForecasterState) (body : Option RawBody) :
    (predict eng sf now st body).1 = (predict eng sf now stB body).1 ∧
    (predict eng sf now st body).2.model = Option.or (fitResult eng sf body) st.model := by
  refine ⟨predict_fst_indep eng sf now st stB body, ?_⟩
  rw [predict_snd]
  cases hf : fitResult eng sf body with
  | none => simp [hf, Option.or]
  | some m => simp [hf, Option.or]

end ProphetByom
